import Mathlib

/-!
# Wagered game-session escrow and resolution engine: a shallow embedding

This file embeds the game-session engine of the repository
(`src/services/game.service.*`, model `game-session.model`, and the
pending-transfer confirmation registry of the bot entry file) as executable
Lean definitions, and proves the specification's claims about them.

Modelling conventions, fixed once for the whole file:

* `wagerPerPlayer` is stored in the source as a fixed-point decimal string and
  every operation recomputes `parseUnits(wagerPerPlayer, decimals)` with the
  same token `decimals`; since that recomputation is a fixed injective map for
  a fixed deployment, the session here stores the parsed value `wagerWei : Nat`
  directly.
* On-chain balances and the fallible `sendTokens` call are external effects;
  operations take the observed balance and a `transferOk : Bool` describing
  whether the stake-collection `sendTokens` call succeeds, exactly where the
  source awaits such a call.  Payout and refund transfers are modelled on
  their success path (no claim concerns their partial failure).
* `Date` timestamps are `Nat` parameters (`now`).
* MongoDB operations are embedded literally: `findOne` is a lookup in the
  function's input, `$push` appends, `$pull` filters out, `positional $set`
  updates the first matching array element, and an `updateOne` document
  update produces the updated session record.
-/

/-- An on-chain account: the owner Safe escrow (`OWNER_SAFE_ADDRESS`) or a
user smart-account address. -/
inductive Acct where
  | escrow
  | userAcct (address : String)
deriving DecidableEq, Repr

/-- One `sendTokens(fromKey, toAddr, amount)` call that actually moved value. -/
structure Transfer where
  source : Acct
  dest : Acct
  amount : Nat
deriving DecidableEq, Repr

/-- A `User` document as read by the game service: `telegramId` and
`smartAccountAddress` (the private key is only used to sign, so it is not
modelled). -/
structure UserRec where
  telegramId : String
  smartAccountAddress : String
deriving DecidableEq, Repr

/-- An embedded `gamePlayerSchema` document. -/
structure GamePlayer where
  telegramId : String
  username : Option String
  side : Nat
  paid : Bool
deriving DecidableEq, Repr

/-- An embedded `gameVoteSchema` document. -/
structure GameVote where
  telegramId : String
  approved : Bool
deriving DecidableEq, Repr

/-- The `status` enum of `gameSessionSchema`. -/
inductive GameStatus where
  | waiting
  | active
  | voting
  | completed
  | cancelled
  | disputed
deriving DecidableEq, Repr

/-- A `GameSession` document (lobby-message rendering fields are omitted: no
operation modelled here reads them). -/
structure GameSession where
  shortId : String
  gameType : String
  creatorTelegramId : String
  wagerWei : Nat
  totalSlots : Nat
  teamBased : Bool
  status : GameStatus
  players : List GamePlayer
  proposedWinnerSide : Option Nat
  proposedWinnerTelegramId : Option String
  votes : List GameVote
  startedAt : Option Nat
  completedAt : Option Nat
deriving DecidableEq, Repr

/-- `GameConfig` from the game service. -/
structure GameConfig where
  id : String
  name : String
  teamBased : Bool
  playerOptions : List Nat
deriving DecidableEq, Repr

/-- `GAME_CONFIGS` (emoji and description fields dropped: presentation only). -/
def GAME_CONFIGS : List GameConfig :=
  [ ⟨"beer_pong", "Beer Pong", true, [2, 4, 6, 8]⟩,
    ⟨"blackjack", "Black Jack", false, [2, 3, 4, 5, 6, 7, 8]⟩,
    ⟨"connect_4", "Connect 4", false, [2]⟩,
    ⟨"darts", "Darts", false, [2, 3, 4]⟩,
    ⟨"flip_cup", "Flip Cup", true, [4, 6, 8]⟩ ]

/-- `getGameConfig`. -/
def getGameConfig (gameType : String) : Option GameConfig :=
  GAME_CONFIGS.find? (fun g => g.id == gameType)

/-- `User.findOne({ telegramId })`. -/
def findUser (users : List UserRec) (telegramId : String) : Option UserRec :=
  users.find? (fun u => u.telegramId == telegramId)

/-- `User.find({ telegramId: { $in: ids } })`. -/
def findUsersIn (users : List UserRec) (ids : List String) : List UserRec :=
  users.filter (fun u => ids.contains u.telegramId)

/-- Total amount over a list of transfers. -/
def sumTx (ts : List Transfer) : Nat :=
  (ts.map (fun t => t.amount)).sum

/-- Sum of the transfer amounts flowing into the escrow account (the stakes
actually collected). -/
def escrowIn (ts : List Transfer) : Nat :=
  sumTx (ts.filter (fun t => t.dest == Acct.escrow))

/-- Sum of the transfer amounts flowing out of the escrow account (refunds and
payouts actually issued). -/
def escrowOut (ts : List Transfer) : Nat :=
  sumTx (ts.filter (fun t => t.source == Acct.escrow))

/-- Result union of `createGameSession`; `transferFailed` is the path where the
awaited stake-collection `sendTokens` throws and the exception propagates. -/
inductive CreateGameResult where
  | ok (shortId : String)
  | err (message : String)
  | transferFailed
deriving DecidableEq, Repr

/-- The observable effect of one `createGameSession` call: its returned result,
the session document committed to storage (if any), and the value transfers
that actually happened. -/
structure CreateEffect where
  result : CreateGameResult
  session : Option GameSession
  txs : List Transfer
deriving DecidableEq, Repr

/-- `createGameSession(gameType, creatorTelegramId, creatorUsername,
totalSlots, wagerPerPlayer)`.  `creatorBalance` is the observed token balance
of the creator's smart account; `transferOk` tells whether the stake-collection
`sendTokens` call succeeds; `shortId` is the collision-free short id produced
by the generation loop. -/
def createGameSession (gameType creatorTelegramId : String)
    (creatorUsername : Option String) (totalSlots wagerWei : Nat)
    (users : List UserRec) (creatorBalance : Nat) (transferOk : Bool)
    (shortId : String) : CreateEffect :=
  match getGameConfig gameType with
  | none => ⟨.err "Unknown game type.", none, []⟩
  | some config =>
    if totalSlots ∈ config.playerOptions then
      match findUser users creatorTelegramId with
      | none => ⟨.err "You don\x27t have a wallet yet. Use /start first.", none, []⟩
      | some creator =>
        if creatorBalance < wagerWei then
          ⟨.err "Insufficient balance.", none, []⟩
        else if transferOk then
          ⟨.ok shortId,
           some { shortId := shortId
                  gameType := gameType
                  creatorTelegramId := creatorTelegramId
                  wagerWei := wagerWei
                  totalSlots := totalSlots
                  teamBased := config.teamBased
                  status := .waiting
                  players := [⟨creatorTelegramId, creatorUsername, 0, true⟩]
                  proposedWinnerSide := none
                  proposedWinnerTelegramId := none
                  votes := []
                  startedAt := none
                  completedAt := none },
           [⟨.userAcct creator.smartAccountAddress, .escrow, wagerWei⟩]⟩
        else ⟨.transferFailed, none, []⟩
    else ⟨.err "Invalid player count for this game.", none, []⟩

/-- Result union of `joinGameSession`. -/
inductive JoinGameResult where
  | ok (isFull : Bool)
  | err (message : String)
  | transferFailed
deriving DecidableEq, Repr

/-- The observable effect of one `joinGameSession` call. -/
structure JoinEffect where
  result : JoinGameResult
  session : GameSession
  txs : List Transfer
deriving DecidableEq, Repr

/-- The team-side selection block of `joinGameSession`: honor a chosen side
with a free slot, reject a full chosen side, otherwise auto-balance to the
smaller side; side 0 out of team mode. -/
def chooseSide (s : GameSession) (chosenSide : Option Nat) : Sum Nat String :=
  if s.teamBased then
    let slotsPerSide := s.totalSlots / 2
    let side0Count := (s.players.filter (fun p => p.side == 0)).length
    let side1Count := (s.players.filter (fun p => p.side == 1)).length
    match chosenSide with
    | some 0 => if slotsPerSide ≤ side0Count then .inr "Team 1 is full." else .inl 0
    | some 1 => if slotsPerSide ≤ side1Count then .inr "Team 2 is full." else .inl 1
    | _ => .inl (if side0Count ≤ side1Count then 0 else 1)
  else .inl 0

/-- `joinGameSession(shortId, telegramId, username, chosenSide)` applied to the
session found under the short id. -/
def joinGameSession (s : GameSession) (telegramId : String)
    (username : Option String) (chosenSide : Option Nat)
    (users : List UserRec) (balance : Nat) (transferOk : Bool)
    (now : Nat) : JoinEffect :=
  if s.status ≠ .waiting then
    ⟨.err "This game is no longer accepting players.", s, []⟩
  else if ∃ p ∈ s.players, p.telegramId = telegramId then
    ⟨.err "You already joined this game.", s, []⟩
  else if s.totalSlots ≤ s.players.length then
    ⟨.err "This game is full.", s, []⟩
  else
    match chooseSide s chosenSide with
    | .inr message => ⟨.err message, s, []⟩
    | .inl side =>
      match findUser users telegramId with
      | none => ⟨.err "You don\x27t have a wallet yet. Use /start first.", s, []⟩
      | some user =>
        if balance < s.wagerWei then
          ⟨.err "Insufficient balance.", s, []⟩
        else if transferOk then
          let isFull := s.totalSlots ≤ s.players.length + 1
          ⟨.ok isFull,
           { s with
             players := s.players ++ [⟨telegramId, username, side, true⟩]
             status := if isFull then .active else s.status
             startedAt := if isFull then some now else s.startedAt },
           [⟨.userAcct user.smartAccountAddress, .escrow, s.wagerWei⟩]⟩
        else ⟨.transferFailed, s, []⟩

/-- Result union of `proposeWinner` and `switchTeam`. -/
inductive SimpleResult where
  | ok
  | err (message : String)
deriving DecidableEq, Repr

/-- The observable effect of a winner proposal. -/
structure ProposeEffect where
  result : SimpleResult
  session : GameSession
deriving DecidableEq, Repr

/-- The `winner` argument of `proposeWinner`: a team side or a player id. -/
inductive WinnerChoice where
  | side (side : Nat)
  | player (telegramId : String)
deriving DecidableEq, Repr

/-- `proposeWinner(shortId, telegramId, winner)` applied to the found session:
creator-only, `active`-only; flips to `voting`, clears the vote list, records
the proposal in exactly one of the two winner fields and nulls the other. -/
def proposeWinner (s : GameSession) (telegramId : String)
    (winner : WinnerChoice) : ProposeEffect :=
  if s.creatorTelegramId ≠ telegramId then
    ⟨.err "Only the game creator can end the game.", s⟩
  else if s.status ≠ .active then
    ⟨.err "This game is not active.", s⟩
  else
    match winner with
    | .side sd =>
        ⟨.ok, { s with status := .voting, votes := []
                       proposedWinnerSide := some sd
                       proposedWinnerTelegramId := none }⟩
    | .player tid =>
        ⟨.ok, { s with status := .voting, votes := []
                       proposedWinnerTelegramId := some tid
                       proposedWinnerSide := none }⟩

/-- The `VoteResult` record returned by `castVote`. -/
structure VoteOutcome where
  success : Bool
  error : Option String
  totalVotes : Nat
  approvals : Nat
  denials : Nat
  resolved : Bool
  approved : Bool
deriving DecidableEq, Repr

/-- The observable effect of one `castVote` call. -/
structure VoteEffect where
  result : VoteOutcome
  session : GameSession
deriving DecidableEq, Repr

/-- `newVotes.filter((v) => v.approved).length` from `castVote`. -/
def approvalsOf (votes : List GameVote) : Nat :=
  (votes.filter (fun v => v.approved)).length

/-- `newVotes.filter((v) => !v.approved).length` from `castVote`. -/
def denialsOf (votes : List GameVote) : Nat :=
  (votes.filter (fun v => !v.approved)).length

/-- `castVote(shortId, telegramId, approved)` applied to the found session:
guards (`voting` status, voter is a player, voter has not voted), then appends
the vote, tallies the post-append vote list, and resolves when approvals or
denials reach the strict majority `floor(n/2)+1` of the player count. -/
def castVote (s : GameSession) (telegramId : String) (approvedVote : Bool)
    (now : Nat) : VoteEffect :=
  if s.status ≠ .voting then
    ⟨⟨false, some "This game is not in voting.", 0, 0, 0, false, false⟩, s⟩
  else if ¬ ∃ p ∈ s.players, p.telegramId = telegramId then
    ⟨⟨false, some "Only players can vote.", 0, 0, 0, false, false⟩, s⟩
  else if ∃ v ∈ s.votes, v.telegramId = telegramId then
    ⟨⟨false, some "You already voted.", 0, 0, 0, false, false⟩, s⟩
  else
    let newVotes := s.votes ++ [⟨telegramId, approvedVote⟩]
    let totalPlayers := s.players.length
    let approvals := approvalsOf newVotes
    let denials := denialsOf newVotes
    let majority := totalPlayers / 2 + 1
    let isApproved := decide (majority ≤ approvals)
    let isDenied := decide (majority ≤ denials)
    let s1 := { s with votes := newVotes }
    ⟨⟨true, none, newVotes.length, approvals, denials, isApproved || isDenied,
      isApproved⟩,
     if isApproved then { s1 with status := .completed, completedAt := some now }
     else if isDenied then { s1 with status := .disputed }
     else s1⟩

/-- Result union of `payoutWinners` (transaction hashes are represented by the
transfers themselves). -/
inductive PayoutResult where
  | ok (winnerIds : List String)
  | err (message : String)
deriving DecidableEq, Repr

/-- The observable effect of one `payoutWinners` call (also the return shape of
`adminResolveGame`, which ends in a payout). -/
structure PayoutEffect where
  result : PayoutResult
  session : GameSession
  txs : List Transfer
deriving DecidableEq, Repr

/-- `payoutWinners(shortId)` applied to the found session: `completed`-only;
winners are the players on the recorded winning side (team case) or the single
recorded winner; the pot `wagerPerPlayer × players.length` is split by integer
division over the winner count and one escrow-to-winner transfer is issued per
found winner account.  No session update is performed. -/
def payoutWinners (s : GameSession) (users : List UserRec) : PayoutEffect :=
  if s.status ≠ .completed then
    ⟨.err "Game is not completed.", s, []⟩
  else
    let winnerIdsRes : Sum (List String) String :=
      if s.teamBased ∧ s.proposedWinnerSide ≠ none then
        .inl ((s.players.filter
                (fun p => some p.side == s.proposedWinnerSide)).map
              (fun p => p.telegramId))
      else
        match s.proposedWinnerTelegramId with
        | some w => .inl [w]
        | none => .inr "No winner specified."
    match winnerIdsRes with
    | .inr message => ⟨.err message, s, []⟩
    | .inl winnerIds =>
      if winnerIds = [] then ⟨.err "No winners found.", s, []⟩
      else
        let totalPot := s.wagerWei * s.players.length
        let perWinner := totalPot / winnerIds.length
        let winners := findUsersIn users winnerIds
        if winners = [] then ⟨.err "Winner accounts not found.", s, []⟩
        else
          ⟨.ok winnerIds, s,
           winners.map (fun u => ⟨.escrow, .userAcct u.smartAccountAddress,
                                  perWinner⟩)⟩

/-- Result union of `refundGame` and `cancelGame`. -/
inductive RefundResult where
  | ok (count : Nat) (playerIds : List String)
  | err (message : String)
deriving DecidableEq, Repr

/-- The observable effect of one `refundGame`/`cancelGame` call. -/
structure RefundEffect where
  result : RefundResult
  session : GameSession
  txs : List Transfer
deriving DecidableEq, Repr

/-- `refundGame(shortId)` applied to the found session: no status check; a
session with no paid players refunds trivially with no update; otherwise one
escrow-to-player transfer of the wager per found paid-player account, then the
status is set to `cancelled`. -/
def refundGame (s : GameSession) (users : List UserRec) : RefundEffect :=
  let paidPlayers := s.players.filter (fun p => p.paid)
  if paidPlayers = [] then ⟨.ok 0 [], s, []⟩
  else
    let found := findUsersIn users (paidPlayers.map (fun p => p.telegramId))
    ⟨.ok found.length (found.map (fun u => u.telegramId)),
     { s with status := .cancelled },
     found.map (fun u => ⟨.escrow, .userAcct u.smartAccountAddress,
                          s.wagerWei⟩)⟩

/-- `cancelGame(shortId, telegramId)`: `refundGame` gated by caller-is-creator
and status `waiting`. -/
def cancelGame (s : GameSession) (telegramId : String)
    (users : List UserRec) : RefundEffect :=
  if s.creatorTelegramId ≠ telegramId then
    ⟨.err "Only the game creator can cancel.", s, []⟩
  else if s.status ≠ .waiting then
    ⟨.err "Can only cancel games that haven\x27t started.", s, []⟩
  else refundGame s users

/-- `parseInt(winnerIdentifier, 10)` restricted to the canonical digit strings
the admin-resolution buttons actually send ("0" and "1"); every other string
is rejected exactly as the source rejects sides outside {0, 1}. -/
def parseSide (winnerIdentifier : String) : Option Nat :=
  if winnerIdentifier = "0" then some 0
  else if winnerIdentifier = "1" then some 1
  else none

/-- `adminResolveGame(shortId, winnerIdentifier)` applied to the found session:
`disputed`-only; records the parsed winner (side for team games, validated
player id otherwise) in exactly one winner field, sets `completed` with a
completion timestamp, then invokes `payoutWinners` on the updated session. -/
def adminResolveGame (s : GameSession) (winnerIdentifier : String)
    (users : List UserRec) (now : Nat) : PayoutEffect :=
  if s.status ≠ .disputed then
    ⟨.err "Game is not disputed.", s, []⟩
  else if s.teamBased then
    match parseSide winnerIdentifier with
    | none => ⟨.err "Invalid side.", s, []⟩
    | some sd =>
        payoutWinners
          { s with proposedWinnerSide := some sd
                   proposedWinnerTelegramId := none
                   status := .completed, completedAt := some now } users
  else
    if ∃ p ∈ s.players, p.telegramId = winnerIdentifier then
      payoutWinners
        { s with proposedWinnerTelegramId := some winnerIdentifier
                 proposedWinnerSide := none
                 status := .completed, completedAt := some now } users
    else ⟨.err "Winner is not a player in this game.", s, []⟩

/-- The positional `$set: { "players.$.side": newSide }` update: the first
array element matching the queried telegram id gets the new side. -/
def setSideFirst : List GamePlayer → String → Nat → List GamePlayer
  | [], _, _ => []
  | p :: ps, tid, sd =>
    if p.telegramId = tid then { p with side := sd } :: ps
    else p :: setSideFirst ps tid sd

/-- The observable effect of one `switchTeam` call. -/
structure SwitchEffect where
  result : SimpleResult
  session : GameSession
deriving DecidableEq, Repr

/-- `switchTeam(shortId, telegramId)` applied to the found session:
`waiting`-only, team games only; flips the caller's side when the destination
side has a free slot.  No fund movement. -/
def switchTeam (s : GameSession) (telegramId : String) : SwitchEffect :=
  if s.status ≠ .waiting then
    ⟨.err "Can only switch teams before the game starts.", s⟩
  else if ¬ s.teamBased then
    ⟨.err "This game doesn\x27t have teams.", s⟩
  else
    match s.players.find? (fun p => p.telegramId == telegramId) with
    | none => ⟨.err "You haven\x27t joined this game.", s⟩
    | some player =>
      let newSide := if player.side = 0 then 1 else 0
      let slotsPerSide := s.totalSlots / 2
      let newSideCount := (s.players.filter (fun p => p.side == newSide)).length
      if slotsPerSide ≤ newSideCount then
        ⟨.err ("Team " ++ toString (newSide + 1) ++ " is full."), s⟩
      else ⟨.ok, { s with players := setSideFirst s.players telegramId newSide }⟩

/-- Result union of `leaveGame`. -/
inductive LeaveResult where
  | ok
  | err (message : String)
  | transferFailed
deriving DecidableEq, Repr

/-- The observable effect of one `leaveGame` call. -/
structure LeaveEffect where
  result : LeaveResult
  session : GameSession
  txs : List Transfer
deriving DecidableEq, Repr

/-- `leaveGame(shortId, telegramId)` applied to the found session:
`waiting`-only, joined players only, forbidden for the creator; refunds the
leaver's wager from escrow, then pulls them from the player list. -/
def leaveGame (s : GameSession) (telegramId : String)
    (users : List UserRec) (transferOk : Bool) : LeaveEffect :=
  if s.status ≠ .waiting then
    ⟨.err "Can only leave before the game starts.", s, []⟩
  else if ¬ ∃ p ∈ s.players, p.telegramId = telegramId then
    ⟨.err "You haven\x27t joined this game.", s, []⟩
  else if s.creatorTelegramId = telegramId then
    ⟨.err "The game creator can\x27t leave. Use cancel instead.", s, []⟩
  else
    match findUser users telegramId with
    | none => ⟨.err "User not found.", s, []⟩
    | some user =>
      if transferOk then
        ⟨.ok,
         { s with players :=
             s.players.filter (fun p => p.telegramId != telegramId) },
         [⟨.escrow, .userAcct user.smartAccountAddress, s.wagerWei⟩]⟩
      else ⟨.transferFailed, s, []⟩

/-- A `PendingTransfer` entry of the in-memory confirmation registry in the
bot entry file. -/
structure PendingTransfer where
  senderTelegramId : String
  senderUsername : Option String
  recipientUsername : String
  amount : String
  symbol : String
  chatId : String
  createdAt : Nat
deriving DecidableEq, Repr

/-- `PENDING_TRANSFER_TTL` (5 minutes in milliseconds). -/
def PENDING_TRANSFER_TTL : Nat := 5 * 60 * 1000

/-- The `pendingTransfers` map, keyed by the random transfer id token. -/
abbrev PendingRegistry := List (String × PendingTransfer)

/-- `pendingTransfers.get(transferId)`. -/
def regGet (reg : PendingRegistry) (transferId : String) :
    Option PendingTransfer :=
  (reg.find? (fun e => e.fst == transferId)).map (fun e => e.snd)

/-- `pendingTransfers.delete(transferId)`. -/
def regDelete (reg : PendingRegistry) (transferId : String) : PendingRegistry :=
  reg.filter (fun e => e.fst != transferId)

/-- Outcome of the `transfer_confirm_*` / `transfer_cancel_*` callback
handler. -/
inductive CbOutcome where
  | noLongerAvailable
  | expired
  | notSender
  | cancelled
  | confirmedAttempt (performedLedgerCall : Bool)
deriving DecidableEq, Repr

/-- The observable effect of one callback-handler run: the registry afterwards,
the user-visible outcome, and how many Ledger (`sendTokens`) calls were
issued. -/
structure TransferCbEffect where
  reg : PendingRegistry
  outcome : CbOutcome
  ledgerTxs : Nat
deriving Repr

/-- The `transfer_confirm_{id}` / `transfer_cancel_{id}` branch of the
`callback_query:data` handler: look the token up (missing → "no longer
available", no change), evict on expiry, reject a non-sender, delete with no
Ledger call on cancel, and on confirm delete the entry first and only then run
`performTransfer`.  `performReachesLedger` tells whether that
`performTransfer` call gets past its validations to the single `sendTokens`
it can issue. -/
def handleTransferCallback (reg : PendingRegistry)
    (transferId callerTelegramId : String) (isConfirm : Bool) (now : Nat)
    (performReachesLedger : Bool) : TransferCbEffect :=
  match regGet reg transferId with
  | none => ⟨reg, .noLongerAvailable, 0⟩
  | some pending =>
    if PENDING_TRANSFER_TTL < now - pending.createdAt then
      ⟨regDelete reg transferId, .expired, 0⟩
    else if pending.senderTelegramId ≠ callerTelegramId then
      ⟨reg, .notSender, 0⟩
    else if ¬ isConfirm then
      ⟨regDelete reg transferId, .cancelled, 0⟩
    else
      ⟨regDelete reg transferId, .confirmedAttempt performReachesLedger,
       if performReachesLedger then 1 else 0⟩

/-! ## Reachability

`ReachC users s ts` says the session document `s` is producible from a
successful `createGameSession` by the lifecycle operations that precede a
terminal money movement (join, switch, leave, propose, vote), with `ts` the
list of all value transfers issued along the way.  `ReachT users s` closes the
same system also under the money-terminal operations (payout, refund, cancel,
admin resolution), so it covers every session state the engine can persist. -/

inductive ReachC (users : List UserRec) : GameSession → List Transfer → Prop where
  | create (gameType creatorTelegramId : String)
      (creatorUsername : Option String) (totalSlots wagerWei : Nat)
      (creatorBalance : Nat) (transferOk : Bool) (shortId : String)
      {s : GameSession}
      (hs : (createGameSession gameType creatorTelegramId creatorUsername
              totalSlots wagerWei users creatorBalance transferOk
              shortId).session = some s) :
      ReachC users s (createGameSession gameType creatorTelegramId
        creatorUsername totalSlots wagerWei users creatorBalance transferOk
        shortId).txs
  | join {s ts} (telegramId : String) (username : Option String)
      (chosenSide : Option Nat) (balance : Nat) (transferOk : Bool) (now : Nat)
      (h : ReachC users s ts) :
      ReachC users
        (joinGameSession s telegramId username chosenSide users balance
          transferOk now).session
        (ts ++ (joinGameSession s telegramId username chosenSide users balance
          transferOk now).txs)
  | switch {s ts} (telegramId : String) (h : ReachC users s ts) :
      ReachC users (switchTeam s telegramId).session ts
  | leave {s ts} (telegramId : String) (transferOk : Bool)
      (h : ReachC users s ts) :
      ReachC users (leaveGame s telegramId users transferOk).session
        (ts ++ (leaveGame s telegramId users transferOk).txs)
  | propose {s ts} (telegramId : String) (winner : WinnerChoice)
      (h : ReachC users s ts) :
      ReachC users (proposeWinner s telegramId winner).session ts
  | vote {s ts} (telegramId : String) (approvedVote : Bool) (now : Nat)
      (h : ReachC users s ts) :
      ReachC users (castVote s telegramId approvedVote now).session ts

inductive ReachT (users : List UserRec) : GameSession → Prop where
  | create (gameType creatorTelegramId : String)
      (creatorUsername : Option String) (totalSlots wagerWei : Nat)
      (creatorBalance : Nat) (transferOk : Bool) (shortId : String)
      {s : GameSession}
      (hs : (createGameSession gameType creatorTelegramId creatorUsername
              totalSlots wagerWei users creatorBalance transferOk
              shortId).session = some s) :
      ReachT users s
  | join {s} (telegramId : String) (username : Option String)
      (chosenSide : Option Nat) (balance : Nat) (transferOk : Bool) (now : Nat)
      (h : ReachT users s) :
      ReachT users (joinGameSession s telegramId username chosenSide users
        balance transferOk now).session
  | switch {s} (telegramId : String) (h : ReachT users s) :
      ReachT users (switchTeam s telegramId).session
  | leave {s} (telegramId : String) (transferOk : Bool) (h : ReachT users s) :
      ReachT users (leaveGame s telegramId users transferOk).session
  | propose {s} (telegramId : String) (winner : WinnerChoice)
      (h : ReachT users s) :
      ReachT users (proposeWinner s telegramId winner).session
  | vote {s} (telegramId : String) (approvedVote : Bool) (now : Nat)
      (h : ReachT users s) :
      ReachT users (castVote s telegramId approvedVote now).session
  | refund {s} (h : ReachT users s) :
      ReachT users (refundGame s users).session
  | cancel {s} (telegramId : String) (h : ReachT users s) :
      ReachT users (cancelGame s telegramId users).session
  | payout {s} (h : ReachT users s) :
      ReachT users (payoutWinners s users).session
  | adminResolve {s} (winnerIdentifier : String) (now : Nat)
      (h : ReachT users s) :
      ReachT users (adminResolveGame s winnerIdentifier users now).session

/-- Before voting (`waiting`, `active`) both winner fields are unset; from
`voting` on (`voting`, `completed`, `disputed`) exactly one of them is set.
A `cancelled` session is unconstrained: cancellation from `waiting` leaves
both unset, while an admin refund of a disputed session keeps the proposal. -/
def winnerFieldsOk (s : GameSession) : Prop :=
  ((s.status = .waiting ∨ s.status = .active) →
    s.proposedWinnerSide = none ∧ s.proposedWinnerTelegramId = none) ∧
  ((s.status = .voting ∨ s.status = .completed ∨ s.status = .disputed) →
    (s.proposedWinnerSide ≠ none ∧ s.proposedWinnerTelegramId = none) ∨
    (s.proposedWinnerSide = none ∧ s.proposedWinnerTelegramId ≠ none))

/-- Telegram ids of a player list. -/
def idsOf (l : List GamePlayer) : List String :=
  l.map (fun p => p.telegramId)

/-- Telegram ids of a user collection. -/
def userIds (users : List UserRec) : List String :=
  users.map (fun u => u.telegramId)

/-- Facts maintained by every pre-terminal lifecycle operation: distinct
player ids, every player paid, every player backed by a user record, and an
escrow balance of exactly one wager per current player. -/
def InvC (users : List UserRec) (s : GameSession) (ts : List Transfer) : Prop :=
  (idsOf s.players).Nodup ∧
  (∀ p ∈ s.players, p.paid = true) ∧
  (∀ p ∈ s.players, p.telegramId ∈ userIds users) ∧
  escrowIn ts = escrowOut ts + s.wagerWei * s.players.length

/-! ## Concrete data for witnesses -/

/-- Two registered users with distinct telegram ids and wallet addresses. -/
def demoUsers : List UserRec := [⟨"alice", "0xA"⟩, ⟨"bob", "0xB"⟩]

/-- A concrete successful session creation: Connect 4, two slots, wager 10,
creator `alice`. -/
def demoCreate : CreateEffect :=
  createGameSession "connect_4" "alice" (some "Alice") 2 10 demoUsers 10 true
    "ab12cd"

/-- The session document `demoCreate` persists. -/
def demoWaiting : GameSession :=
  { shortId := "ab12cd", gameType := "connect_4", creatorTelegramId := "alice"
    wagerWei := 10, totalSlots := 2, teamBased := false, status := .waiting
    players := [⟨"alice", some "Alice", 0, true⟩]
    proposedWinnerSide := none, proposedWinnerTelegramId := none, votes := []
    startedAt := none, completedAt := none }

/-- `bob` joins and fills the last slot. -/
def demoJoin : JoinEffect :=
  joinGameSession demoWaiting "bob" (some "Bob") none demoUsers 10 true 100

/-- The creator proposes `bob` as winner. -/
def demoVoting : GameSession :=
  (proposeWinner demoJoin.session "alice" (WinnerChoice.player "bob")).session

/-- First approval (1 of 2, below the majority threshold 2). -/
def demoVote1 : VoteEffect := castVote demoVoting "alice" true 200

/-- Second approval reaches the majority and completes the session. -/
def demoCompleted : GameSession :=
  (castVote demoVote1.session "bob" true 300).session

/-- All stake transfers of the demo lifecycle. -/
def demoTxs : List Transfer := demoCreate.txs ++ demoJoin.txs

/-- A completed, fully paid two-player session with a recorded winner: the
state right after a voted resolution, before payout. -/
def c3Session : GameSession :=
  { shortId := "dead01", gameType := "connect_4", creatorTelegramId := "alice"
    wagerWei := 10, totalSlots := 2, teamBased := false, status := .completed
    players := [⟨"alice", none, 0, true⟩, ⟨"bob", none, 0, true⟩]
    proposedWinnerSide := none, proposedWinnerTelegramId := some "bob"
    votes := [⟨"alice", true⟩, ⟨"bob", true⟩]
    startedAt := some 1, completedAt := some 2 }

/-- Four registered users for the team-game examples. -/
def teamUsers : List UserRec :=
  [⟨"alice", "0xA"⟩, ⟨"bob", "0xB"⟩, ⟨"carol", "0xC"⟩, ⟨"dave", "0xD"⟩]

/-- A completed 2v2 beer-pong session with side 0 recorded as winner. -/
def teamSession : GameSession :=
  { shortId := "feed02", gameType := "beer_pong", creatorTelegramId := "alice"
    wagerWei := 10, totalSlots := 4, teamBased := true, status := .completed
    players := [⟨"alice", none, 0, true⟩, ⟨"bob", none, 0, true⟩,
                ⟨"carol", none, 1, true⟩, ⟨"dave", none, 1, true⟩]
    proposedWinnerSide := some 0, proposedWinnerTelegramId := none
    votes := [], startedAt := some 1, completedAt := some 2 }

/-- A four-player voting session at the point of the deciding 2-2 vote:
three votes are in (one approval, two... one approval and one denial each
way so that the fourth vote can tie at 2-2). -/
def voteSession : GameSession :=
  { shortId := "cafe03", gameType := "darts", creatorTelegramId := "alice"
    wagerWei := 10, totalSlots := 4, teamBased := false, status := .voting
    players := [⟨"alice", none, 0, true⟩, ⟨"bob", none, 0, true⟩,
                ⟨"carol", none, 0, true⟩, ⟨"dave", none, 0, true⟩]
    proposedWinnerSide := none, proposedWinnerTelegramId := some "dave"
    votes := [⟨"alice", true⟩, ⟨"bob", false⟩, ⟨"carol", true⟩]
    startedAt := some 1, completedAt := none }

/-- A four-player voting session with no votes yet. -/
def freshVoteSession : GameSession :=
  { voteSession with votes := [] }

/-- An artificial already-full `waiting` session (two players in two slots),
used to exercise the joining-when-full rejection. -/
def fullWaiting : GameSession :=
  { demoWaiting with
    players := [⟨"alice", some "Alice", 0, true⟩, ⟨"bob", some "Bob", 0, true⟩] }

/-- One pending single-party transfer awaiting confirmation. -/
def pendingEntry : PendingTransfer :=
  ⟨"alice", some "Alice", "bob", "5", "TKN", "chat1", 0⟩

/-- A registry holding exactly that pending transfer under token `tok123`. -/
def pendingReg : PendingRegistry := [("tok123", pendingEntry)]

/-! ## Basic bookkeeping lemmas -/

theorem sumTx_append (a b : List Transfer) :
    sumTx (a ++ b) = sumTx a + sumTx b := by
  simp [sumTx]

theorem escrowIn_append (a b : List Transfer) :
    escrowIn (a ++ b) = escrowIn a + escrowIn b := by
  simp [escrowIn, List.filter_append, sumTx_append]

theorem escrowOut_append (a b : List Transfer) :
    escrowOut (a ++ b) = escrowOut a + escrowOut b := by
  simp [escrowOut, List.filter_append, sumTx_append]

theorem escrowIn_stake (addr : String) (w : Nat) :
    escrowIn [⟨Acct.userAcct addr, Acct.escrow, w⟩] = w := by
  simp [escrowIn, sumTx]

theorem escrowOut_stake (addr : String) (w : Nat) :
    escrowOut [⟨Acct.userAcct addr, Acct.escrow, w⟩] = 0 := by
  simp [escrowOut, sumTx]

theorem escrowIn_payout (addr : String) (w : Nat) :
    escrowIn [⟨Acct.escrow, Acct.userAcct addr, w⟩] = 0 := by
  simp [escrowIn, sumTx]

theorem escrowOut_payout (addr : String) (w : Nat) :
    escrowOut [⟨Acct.escrow, Acct.userAcct addr, w⟩] = w := by
  simp [escrowOut, sumTx]

theorem findUser_spec {users : List UserRec} {tid : String} {u : UserRec}
    (h : findUser users tid = some u) : u ∈ users ∧ u.telegramId = tid := by
  unfold findUser at h
  have hmem := List.mem_of_find?_eq_some h
  have hp := List.find?_some h
  exact ⟨hmem, by simpa using hp⟩

/-- `payoutWinners` performs no session update, in any branch. -/
theorem payoutWinners_session (s : GameSession) (users : List UserRec) :
    (payoutWinners s users).session = s := by
  unfold payoutWinners
  repeat' (first | split | dsimp only)

/-! ## The proposed-winner fields over the lifecycle -/

theorem winnerFieldsOk_create {gameType creatorTelegramId : String}
    {creatorUsername : Option String} {totalSlots wagerWei : Nat}
    {users : List UserRec} {creatorBalance : Nat} {transferOk : Bool}
    {shortId : String} {s : GameSession}
    (hs : (createGameSession gameType creatorTelegramId creatorUsername
            totalSlots wagerWei users creatorBalance transferOk
            shortId).session = some s) : winnerFieldsOk s := by
  unfold createGameSession at hs
  repeat' split at hs
  all_goals simp_all
  subst hs
  simp [winnerFieldsOk]

/-- A session whose winner fields are both unset and whose status precedes
voting satisfies the winner-field discipline. -/
theorem winnerFieldsOk_none (s : GameSession)
    (h1 : s.proposedWinnerSide = none)
    (h2 : s.proposedWinnerTelegramId = none)
    (h3 : s.status = .waiting ∨ s.status = .active) : winnerFieldsOk s := by
  refine ⟨fun _ => ⟨h1, h2⟩, fun hm => ?_⟩
  rcases h3 with h | h <;> rcases hm with hm | hm | hm <;> simp_all

/-- A session from voting onwards with exactly one winner field set satisfies
the winner-field discipline. -/
theorem winnerFieldsOk_one (s : GameSession)
    (h1 : (s.proposedWinnerSide ≠ none ∧ s.proposedWinnerTelegramId = none) ∨
          (s.proposedWinnerSide = none ∧ s.proposedWinnerTelegramId ≠ none))
    (h3 : s.status = .voting ∨ s.status = .completed ∨ s.status = .disputed) :
    winnerFieldsOk s := by
  refine ⟨fun hm => ?_, fun _ => h1⟩
  rcases h3 with h | h | h <;> rcases hm with hm | hm <;> simp_all

theorem winnerFieldsOk_join {s : GameSession} {telegramId : String}
    {username : Option String} {chosenSide : Option Nat}
    {users : List UserRec} {balance : Nat} {transferOk : Bool} {now : Nat}
    (hw : winnerFieldsOk s) :
    winnerFieldsOk (joinGameSession s telegramId username chosenSide users
      balance transferOk now).session := by
  unfold joinGameSession
  repeat' (first | split | dsimp only)
  all_goals try exact hw
  all_goals simp only [ne_eq, not_not] at *
  all_goals
    have hwait : s.status = GameStatus.waiting := by assumption
  all_goals have hnone := hw.1 (Or.inl hwait)
  all_goals exact winnerFieldsOk_none _ hnone.1 hnone.2 (Or.inr rfl)

theorem winnerFieldsOk_switch {s : GameSession} {telegramId : String}
    (hw : winnerFieldsOk s) :
    winnerFieldsOk (switchTeam s telegramId).session := by
  unfold switchTeam
  repeat' (first | split | dsimp only)
  all_goals exact hw

theorem winnerFieldsOk_leave {s : GameSession} {telegramId : String}
    {users : List UserRec} {transferOk : Bool} (hw : winnerFieldsOk s) :
    winnerFieldsOk (leaveGame s telegramId users transferOk).session := by
  unfold leaveGame
  repeat' (first | split | dsimp only)
  all_goals exact hw

theorem winnerFieldsOk_propose {s : GameSession} {telegramId : String}
    {winner : WinnerChoice} (hw : winnerFieldsOk s) :
    winnerFieldsOk (proposeWinner s telegramId winner).session := by
  unfold proposeWinner
  repeat' (first | split | dsimp only)
  all_goals try exact hw
  · exact winnerFieldsOk_one _ (Or.inl (by simp)) (Or.inl rfl)
  · exact winnerFieldsOk_one _ (Or.inr (by simp)) (Or.inl rfl)

theorem winnerFieldsOk_vote {s : GameSession} {telegramId : String}
    {approvedVote : Bool} {now : Nat} (hw : winnerFieldsOk s) :
    winnerFieldsOk (castVote s telegramId approvedVote now).session := by
  unfold castVote
  repeat' (first | split | dsimp only)
  all_goals try exact hw
  all_goals simp only [ne_eq, not_not] at *
  all_goals
    have hvot : s.status = GameStatus.voting := by assumption
  all_goals have hone := hw.2 (Or.inl hvot)
  all_goals
    first
    | exact winnerFieldsOk_one _ hone (Or.inr (Or.inl rfl))
    | exact winnerFieldsOk_one _ hone (Or.inr (Or.inr rfl))

theorem winnerFieldsOk_refund {s : GameSession} {users : List UserRec}
    (hw : winnerFieldsOk s) :
    winnerFieldsOk (refundGame s users).session := by
  unfold refundGame
  repeat' (first | split | dsimp only)
  · exact hw
  · exact ⟨fun hm => by rcases hm with hm | hm <;> simp_all,
           fun hm => by rcases hm with hm | hm | hm <;> simp_all⟩

theorem winnerFieldsOk_cancel {s : GameSession} {telegramId : String}
    {users : List UserRec} (hw : winnerFieldsOk s) :
    winnerFieldsOk (cancelGame s telegramId users).session := by
  unfold cancelGame
  repeat' split
  · exact hw
  · exact hw
  · exact winnerFieldsOk_refund hw

theorem winnerFieldsOk_adminResolve {s : GameSession}
    {winnerIdentifier : String} {users : List UserRec} {now : Nat}
    (hw : winnerFieldsOk s) :
    winnerFieldsOk (adminResolveGame s winnerIdentifier users now).session := by
  unfold adminResolveGame
  repeat' split
  all_goals try exact hw
  all_goals rw [payoutWinners_session]
  · exact winnerFieldsOk_one _ (Or.inl (by simp)) (Or.inr (Or.inl rfl))
  · exact winnerFieldsOk_one _ (Or.inr (by simp)) (Or.inr (Or.inl rfl))

/-! ## Characterization of the operations' success paths -/

theorem createGameSession_cases (gameType creatorTelegramId : String)
    (creatorUsername : Option String) (totalSlots wagerWei : Nat)
    (users : List UserRec) (creatorBalance : Nat) (transferOk : Bool)
    (shortId : String) :
    (∃ msg, createGameSession gameType creatorTelegramId creatorUsername
        totalSlots wagerWei users creatorBalance transferOk shortId =
      ⟨.err msg, none, []⟩) ∨
    (createGameSession gameType creatorTelegramId creatorUsername totalSlots
        wagerWei users creatorBalance transferOk shortId =
      ⟨.transferFailed, none, []⟩) ∨
    (∃ config creator,
      getGameConfig gameType = some config ∧
      totalSlots ∈ config.playerOptions ∧
      findUser users creatorTelegramId = some creator ∧
      ¬ creatorBalance < wagerWei ∧ transferOk = true ∧
      createGameSession gameType creatorTelegramId creatorUsername totalSlots
          wagerWei users creatorBalance transferOk shortId =
        ⟨.ok shortId,
         some { shortId := shortId
                gameType := gameType
                creatorTelegramId := creatorTelegramId
                wagerWei := wagerWei
                totalSlots := totalSlots
                teamBased := config.teamBased
                status := .waiting
                players := [⟨creatorTelegramId, creatorUsername, 0, true⟩]
                proposedWinnerSide := none
                proposedWinnerTelegramId := none
                votes := []
                startedAt := none
                completedAt := none },
         [⟨.userAcct creator.smartAccountAddress, .escrow, wagerWei⟩]⟩) := by
  unfold createGameSession
  repeat' (first | split | dsimp only)
  all_goals
    first
    | exact Or.inl ⟨_, rfl⟩
    | exact Or.inr (Or.inl rfl)
    | refine Or.inr (Or.inr ⟨_, _, ?_, ?_, ?_, ?_, ?_, rfl⟩) <;> assumption

theorem joinGameSession_cases (s : GameSession) (telegramId : String)
    (username : Option String) (chosenSide : Option Nat)
    (users : List UserRec) (balance : Nat) (transferOk : Bool) (now : Nat) :
    (∃ msg, joinGameSession s telegramId username chosenSide users balance
        transferOk now = ⟨.err msg, s, []⟩) ∨
    (joinGameSession s telegramId username chosenSide users balance transferOk
        now = ⟨.transferFailed, s, []⟩) ∨
    (∃ side user,
      s.status = .waiting ∧
      ¬ (∃ p ∈ s.players, p.telegramId = telegramId) ∧
      s.players.length < s.totalSlots ∧
      chooseSide s chosenSide = .inl side ∧
      findUser users telegramId = some user ∧
      ¬ balance < s.wagerWei ∧ transferOk = true ∧
      joinGameSession s telegramId username chosenSide users balance transferOk
          now =
        ⟨.ok (decide (s.totalSlots ≤ s.players.length + 1)),
         { s with
           players := s.players ++ [⟨telegramId, username, side, true⟩]
           status := if s.totalSlots ≤ s.players.length + 1 then .active
                     else s.status
           startedAt := if s.totalSlots ≤ s.players.length + 1 then some now
                        else s.startedAt },
         [⟨.userAcct user.smartAccountAddress, .escrow, s.wagerWei⟩]⟩) := by
  unfold joinGameSession
  repeat' (first | split | dsimp only)
  all_goals
    first
    | exact Or.inl ⟨_, rfl⟩
    | exact Or.inr (Or.inl rfl)
    | (refine Or.inr (Or.inr ⟨_, _, ?_, ?_, ?_, ?_, ?_, ?_, ?_, rfl⟩) <;>
        first
        | assumption
        | exact not_not.mp (by assumption)
        | omega)
    | (exfalso; simp_all)

theorem leaveGame_cases (s : GameSession) (telegramId : String)
    (users : List UserRec) (transferOk : Bool) :
    (∃ msg, leaveGame s telegramId users transferOk = ⟨.err msg, s, []⟩) ∨
    (leaveGame s telegramId users transferOk = ⟨.transferFailed, s, []⟩) ∨
    (∃ user,
      s.status = .waiting ∧
      (∃ p ∈ s.players, p.telegramId = telegramId) ∧
      s.creatorTelegramId ≠ telegramId ∧
      findUser users telegramId = some user ∧ transferOk = true ∧
      leaveGame s telegramId users transferOk =
        ⟨.ok,
         { s with players :=
             s.players.filter (fun p => p.telegramId != telegramId) },
         [⟨.escrow, .userAcct user.smartAccountAddress, s.wagerWei⟩]⟩) := by
  unfold leaveGame
  repeat' (first | split | dsimp only)
  all_goals
    first
    | exact Or.inl ⟨_, rfl⟩
    | exact Or.inr (Or.inl rfl)
    | (refine Or.inr (Or.inr ⟨_, ?_, ?_, ?_, ?_, ?_, rfl⟩) <;>
        first
        | assumption
        | exact not_not.mp (by assumption))

theorem refundGame_cases (s : GameSession) (users : List UserRec) :
    (s.players.filter (fun p => p.paid) = [] ∧
      refundGame s users = ⟨.ok 0 [], s, []⟩) ∨
    (s.players.filter (fun p => p.paid) ≠ [] ∧
      refundGame s users =
        ⟨.ok (findUsersIn users
               (idsOf (s.players.filter (fun p => p.paid)))).length
             ((findUsersIn users
               (idsOf (s.players.filter (fun p => p.paid)))).map
              (fun u => u.telegramId)),
         { s with status := .cancelled },
         (findUsersIn users
           (idsOf (s.players.filter (fun p => p.paid)))).map
          (fun u => ⟨.escrow, .userAcct u.smartAccountAddress,
                     s.wagerWei⟩)⟩) := by
  unfold refundGame idsOf
  repeat' (first | split | dsimp only)
  · exact Or.inl ⟨by assumption, rfl⟩
  · exact Or.inr ⟨by assumption, rfl⟩

theorem payoutWinners_cases (s : GameSession) (users : List UserRec) :
    (∃ msg, payoutWinners s users = ⟨.err msg, s, []⟩) ∨
    (∃ winnerIds,
      s.status = .completed ∧ winnerIds ≠ [] ∧
      ((s.teamBased = true ∧ s.proposedWinnerSide ≠ none ∧
        winnerIds = idsOf (s.players.filter
          (fun p => some p.side == s.proposedWinnerSide))) ∨
       (¬ (s.teamBased = true ∧ s.proposedWinnerSide ≠ none) ∧
        ∃ w, s.proposedWinnerTelegramId = some w ∧ winnerIds = [w])) ∧
      findUsersIn users winnerIds ≠ [] ∧
      payoutWinners s users =
        ⟨.ok winnerIds, s,
         (findUsersIn users winnerIds).map
          (fun u => ⟨.escrow, .userAcct u.smartAccountAddress,
                     s.wagerWei * s.players.length / winnerIds.length⟩)⟩) := by
  unfold payoutWinners idsOf
  repeat' (first | split | dsimp only)
  all_goals
    first
    | exact Or.inl ⟨_, rfl⟩
    | (refine Or.inr ⟨_, ?_, ?_, Or.inl ⟨?_, ?_, rfl⟩, ?_, rfl⟩ <;>
        first
        | assumption
        | exact not_not.mp (by assumption)
        | exact (by assumption : _ ∧ _).1
        | exact (by assumption : _ ∧ _).2)
    | (refine Or.inr ⟨_, ?_, ?_, Or.inr ⟨?_, _, ?_, rfl⟩, ?_, rfl⟩ <;>
        first
        | assumption
        | exact not_not.mp (by assumption))

/-! ## List bookkeeping lemmas -/

theorem setSideFirst_ids (l : List GamePlayer) (tid : String) (sd : Nat) :
    idsOf (setSideFirst l tid sd) = idsOf l := by
  induction l with
  | nil => rfl
  | cons p ps ih =>
    by_cases h : p.telegramId = tid <;>
      (simp [setSideFirst, h, idsOf]; try simpa [idsOf] using ih)

theorem setSideFirst_mem {l : List GamePlayer} {tid : String} {sd : Nat} :
    ∀ p ∈ setSideFirst l tid sd,
      ∃ q ∈ l, p.telegramId = q.telegramId ∧ p.paid = q.paid := by
  induction l with
  | nil => simp [setSideFirst]
  | cons q qs ih =>
    by_cases h : q.telegramId = tid
    · simp only [setSideFirst, if_pos h]
      intro p hp
      rcases List.mem_cons.mp hp with hp | hp
      · exact ⟨q, List.mem_cons_self q qs, by simp [hp]⟩
      · exact ⟨p, List.mem_cons_of_mem q hp, rfl, rfl⟩
    · simp only [setSideFirst, if_neg h]
      intro p hp
      rcases List.mem_cons.mp hp with hp | hp
      · exact ⟨q, List.mem_cons_self q qs, by simp [hp]⟩
      · obtain ⟨r, hr, h1, h2⟩ := ih p hp
        exact ⟨r, List.mem_cons_of_mem q hr, h1, h2⟩

theorem setSideFirst_length (l : List GamePlayer) (tid : String) (sd : Nat) :
    (setSideFirst l tid sd).length = l.length := by
  induction l with
  | nil => rfl
  | cons p ps ih =>
    by_cases h : p.telegramId = tid <;> simp [setSideFirst, h, ih]

theorem idsOf_filter_sublist (l : List GamePlayer) (f : GamePlayer → Bool) :
    (idsOf (l.filter f)).Sublist (idsOf l) := by
  unfold idsOf
  exact (List.filter_sublist l).map (fun p => p.telegramId)

/-- Removing the one player carrying a given id from a duplicate-free player
list shortens it by exactly one. -/
theorem length_filter_out_id {l : List GamePlayer} {tid : String}
    (hnd : (idsOf l).Nodup) (hmem : ∃ p ∈ l, p.telegramId = tid) :
    (l.filter (fun p => p.telegramId != tid)).length + 1 = l.length := by
  induction l with
  | nil => simp at hmem
  | cons p ps ih =>
    have hnd' : (idsOf ps).Nodup := (List.nodup_cons.mp hnd).2
    have hhead : p.telegramId ∉ idsOf ps := by
      have h0 := (List.nodup_cons.mp hnd).1
      simpa [idsOf] using h0
    by_cases h : p.telegramId = tid
    · have hnotin : tid ∉ idsOf ps := h ▸ hhead
      have hall : ps.filter (fun q => q.telegramId != tid) = ps := by
        refine List.filter_eq_self.mpr (fun q hq => ?_)
        simp only [bne_iff_ne, ne_eq, decide_eq_true_eq]
        intro hq'
        exact hnotin (hq' ▸ List.mem_map_of_mem (fun r => r.telegramId) hq)
      simp [List.filter_cons, h, hall]
    · have hmem' : ∃ q ∈ ps, q.telegramId = tid := by
        rcases hmem with ⟨q, hq, hq'⟩
        rcases List.mem_cons.mp hq with rfl | hq
        · exact absurd hq' h
        · exact ⟨q, hq, hq'⟩
      have hcons : (p :: ps).filter (fun q => q.telegramId != tid)
          = p :: ps.filter (fun q => q.telegramId != tid) := by
        simp [List.filter_cons, h]
      rw [hcons]
      have := ih hnd' hmem'
      simp only [List.length_cons]
      omega

theorem map_findUsersIn (users : List UserRec) (ids : List String) :
    (findUsersIn users ids).map (fun u => u.telegramId) =
      (userIds users).filter (fun t => ids.contains t) := by
  unfold findUsersIn userIds
  induction users with
  | nil => rfl
  | cons u us ih =>
    by_cases h : ids.contains u.telegramId = true
    · simp only [List.filter_cons, List.map_cons, if_pos h]
      rw [ih]
    · simp only [List.filter_cons, List.map_cons, if_neg h]
      exact ih

theorem length_filter_contains {L ids : List String} (hL : L.Nodup)
    (hids : ids.Nodup) (hsub : ∀ i ∈ ids, i ∈ L) :
    (L.filter (fun t => ids.contains t)).length = ids.length := by
  have h1 : (L.filter (fun t => ids.contains t)).Nodup := hL.filter _
  have h2 : (L.filter (fun t => ids.contains t)).toFinset = ids.toFinset := by
    ext t
    simp only [List.mem_toFinset, List.mem_filter]
    constructor
    · rintro ⟨_, ht⟩
      simpa using ht
    · intro ht
      refine ⟨hsub t ht, ?_⟩
      simpa using ht
  have h3 := List.toFinset_card_of_nodup h1
  have h4 := List.toFinset_card_of_nodup hids
  rw [← h3, ← h4, h2]

theorem length_findUsersIn {users : List UserRec} {ids : List String}
    (hU : (userIds users).Nodup) (hids : ids.Nodup)
    (hsub : ∀ i ∈ ids, i ∈ userIds users) :
    (findUsersIn users ids).length = ids.length := by
  have h := congrArg List.length (map_findUsersIn users ids)
  rw [List.length_map] at h
  rw [h]
  exact length_filter_contains hU hids hsub

theorem findUsersIn_singleton_le {users : List UserRec} {w : String}
    (hU : (userIds users).Nodup) : (findUsersIn users [w]).length ≤ 1 := by
  induction users with
  | nil => simp [findUsersIn]
  | cons u us ih =>
    have hnd' : (userIds us).Nodup := (List.nodup_cons.mp hU).2
    have hhead : u.telegramId ∉ userIds us := (List.nodup_cons.mp hU).1
    by_cases h : u.telegramId = w
    · have hmemw : ∀ v ∈ us, v.telegramId ≠ w := by
        intro v hv hvw
        exact hhead (by
          rw [h, ← hvw]
          exact List.mem_map_of_mem (fun r => r.telegramId) hv)
      simp only [findUsersIn, List.filter_cons]
      simp [h]
      exact hmemw
    · simpa [findUsersIn, List.filter_cons, h] using ih hnd'

theorem sumTx_payout_map (l : List UserRec) (a : Nat) :
    sumTx (l.map (fun u =>
      (⟨.escrow, .userAcct u.smartAccountAddress, a⟩ : Transfer))) =
      l.length * a := by
  induction l with
  | nil => simp [sumTx]
  | cons u us ih =>
    simp only [List.map_cons, sumTx, List.sum_cons, List.length_cons] at *
    rw [ih]
    ring

/-! ## The core escrow invariant -/

theorem invC_create {gameType creatorTelegramId : String}
    {creatorUsername : Option String} {totalSlots wagerWei : Nat}
    {users : List UserRec} {creatorBalance : Nat} {transferOk : Bool}
    {shortId : String} {s : GameSession}
    (hs : (createGameSession gameType creatorTelegramId creatorUsername
            totalSlots wagerWei users creatorBalance transferOk
            shortId).session = some s) :
    InvC users s (createGameSession gameType creatorTelegramId creatorUsername
      totalSlots wagerWei users creatorBalance transferOk shortId).txs := by
  rcases createGameSession_cases gameType creatorTelegramId creatorUsername
      totalSlots wagerWei users creatorBalance transferOk shortId with
    ⟨msg, he⟩ | he | ⟨config, creator, _, _, hfind, _, _, he⟩
  · rw [he] at hs
    simp at hs
  · rw [he] at hs
    simp at hs
  · rw [he] at hs ⊢
    simp only [Option.some.injEq] at hs
    subst hs
    obtain ⟨hcmem, hcid⟩ := findUser_spec hfind
    refine ⟨by simp [idsOf], by simp, ?_, ?_⟩
    · intro p hp
      simp only [List.mem_singleton] at hp
      subst hp
      exact hcid ▸ List.mem_map_of_mem (fun u => u.telegramId) hcmem
    · simp [escrowIn_stake, escrowOut_stake]

theorem invC_join {s : GameSession} {telegramId : String}
    {username : Option String} {chosenSide : Option Nat}
    {users : List UserRec} {balance : Nat} {transferOk : Bool} {now : Nat}
    {ts : List Transfer} (h : InvC users s ts) :
    InvC users (joinGameSession s telegramId username chosenSide users balance
        transferOk now).session
      (ts ++ (joinGameSession s telegramId username chosenSide users balance
        transferOk now).txs) := by
  obtain ⟨hnd, hpaid, hpres, hesc⟩ := h
  rcases joinGameSession_cases s telegramId username chosenSide users balance
      transferOk now with
    ⟨msg, he⟩ | he | ⟨side, user, _, hdup, _, _, hfind, _, _, he⟩
  · rw [he]
    exact ⟨hnd, hpaid, hpres, by simpa using hesc⟩
  · rw [he]
    exact ⟨hnd, hpaid, hpres, by simpa using hesc⟩
  · rw [he]
    obtain ⟨humem, huid⟩ := findUser_spec hfind
    have hnotin : telegramId ∉ idsOf s.players := by
      intro hmem
      obtain ⟨p, hp, hpid⟩ := List.mem_map.mp hmem
      exact hdup ⟨p, hp, hpid⟩
    refine ⟨?_, ?_, ?_, ?_⟩
    · rw [show idsOf (s.players ++ [⟨telegramId, username, side, true⟩])
            = idsOf s.players ++ [telegramId] by simp [idsOf]]
      refine List.Nodup.append hnd (by simp) ?_
      intro a ha hb
      simp only [List.mem_singleton] at hb
      subst hb
      exact hnotin ha
    · intro p hp
      rcases List.mem_append.mp hp with hp | hp
      · exact hpaid p hp
      · simp only [List.mem_singleton] at hp
        subst hp
        rfl
    · intro p hp
      rcases List.mem_append.mp hp with hp | hp
      · exact hpres p hp
      · simp only [List.mem_singleton] at hp
        subst hp
        exact huid ▸ List.mem_map_of_mem (fun u => u.telegramId) humem
    · simp only [escrowIn_append, escrowOut_append, escrowIn_stake,
        escrowOut_stake, List.length_append, List.length_singleton]
      rw [hesc]
      ring

theorem invC_switch {users : List UserRec} {s : GameSession}
    {telegramId : String} {ts : List Transfer} (h : InvC users s ts) :
    InvC users (switchTeam s telegramId).session ts := by
  obtain ⟨hnd, hpaid, hpres, hesc⟩ := h
  unfold switchTeam
  repeat' (first | split | dsimp only)
  all_goals try exact ⟨hnd, hpaid, hpres, hesc⟩
  all_goals
    exact ⟨by simpa [setSideFirst_ids] using hnd,
      fun p hp => by
        obtain ⟨q, hq, _, hpd⟩ := setSideFirst_mem p hp
        exact hpd ▸ hpaid q hq,
      fun p hp => by
        obtain ⟨q, hq, hid, _⟩ := setSideFirst_mem p hp
        exact hid ▸ hpres q hq,
      by simpa [setSideFirst_length] using hesc⟩

theorem invC_leave {users : List UserRec} {s : GameSession}
    {telegramId : String} {transferOk : Bool} {ts : List Transfer}
    (h : InvC users s ts) :
    InvC users (leaveGame s telegramId users transferOk).session
      (ts ++ (leaveGame s telegramId users transferOk).txs) := by
  obtain ⟨hnd, hpaid, hpres, hesc⟩ := h
  rcases leaveGame_cases s telegramId users transferOk with
    ⟨msg, he⟩ | he | ⟨user, _, hmem, _, _, _, he⟩
  · rw [he]
    exact ⟨hnd, hpaid, hpres, by simpa using hesc⟩
  · rw [he]
    exact ⟨hnd, hpaid, hpres, by simpa using hesc⟩
  · rw [he]
    have hlen := length_filter_out_id hnd hmem
    refine ⟨?_, ?_, ?_, ?_⟩
    · exact hnd.sublist (idsOf_filter_sublist s.players _)
    · intro p hp
      exact hpaid p (List.mem_of_mem_filter hp)
    · intro p hp
      exact hpres p (List.mem_of_mem_filter hp)
    · simp only [escrowIn_append, escrowOut_append, escrowIn_payout,
        escrowOut_payout]
      have hn1 : 1 ≤ s.players.length := by
        rcases hmem with ⟨p, hp, _⟩
        exact List.length_pos.mpr (List.ne_nil_of_mem hp)
      have hmul : s.wagerWei * s.players.length =
          s.wagerWei *
            (s.players.filter (fun p => p.telegramId != telegramId)).length +
          s.wagerWei := by
        rw [show s.players.length = (s.players.filter
              (fun p => p.telegramId != telegramId)).length + 1 from
            hlen.symm]
        ring
      omega

theorem invC_propose {users : List UserRec} {s : GameSession}
    {telegramId : String} {winner : WinnerChoice} {ts : List Transfer}
    (h : InvC users s ts) :
    InvC users (proposeWinner s telegramId winner).session ts := by
  unfold proposeWinner
  repeat' (first | split | dsimp only)
  all_goals exact h

theorem invC_vote {users : List UserRec} {s : GameSession}
    {telegramId : String} {approvedVote : Bool} {now : Nat}
    {ts : List Transfer} (h : InvC users s ts) :
    InvC users (castVote s telegramId approvedVote now).session ts := by
  unfold castVote
  repeat' (first | split | dsimp only)
  all_goals exact h

/-- Every pre-terminal reachable state satisfies the escrow invariant. -/
theorem reachC_invC {users : List UserRec} {s : GameSession}
    {ts : List Transfer} (h : ReachC users s ts) : InvC users s ts := by
  induction h with
  | create _ _ _ _ _ _ _ _ hs => exact invC_create hs
  | join _ _ _ _ _ _ _ ih => exact invC_join ih
  | switch _ _ ih => exact invC_switch ih
  | leave _ _ _ ih => exact invC_leave ih
  | propose _ _ _ ih => exact invC_propose ih
  | vote _ _ _ _ ih => exact invC_vote ih

theorem cancelGame_cases (s : GameSession) (telegramId : String)
    (users : List UserRec) :
    (∃ msg, cancelGame s telegramId users = ⟨.err msg, s, []⟩) ∨
    (s.creatorTelegramId = telegramId ∧ s.status = .waiting ∧
      cancelGame s telegramId users = refundGame s users) := by
  unfold cancelGame
  repeat' split
  all_goals
    first
    | exact Or.inl ⟨_, rfl⟩
    | (refine Or.inr ⟨?_, ?_, rfl⟩ <;>
        first
        | assumption
        | exact not_not.mp (by assumption))

/-- On an all-paid session whose players all have user records, `refundGame`
returns exactly one wager per player. -/
theorem refund_txs_sum {users : List UserRec} {s : GameSession}
    (hU : (userIds users).Nodup) (hnd : (idsOf s.players).Nodup)
    (hpaid : ∀ p ∈ s.players, p.paid = true)
    (hpres : ∀ p ∈ s.players, p.telegramId ∈ userIds users) :
    sumTx (refundGame s users).txs = s.wagerWei * s.players.length := by
  have hfilter : s.players.filter (fun p => p.paid) = s.players :=
    List.filter_eq_self.mpr (fun p hp => by simp [hpaid p hp])
  have hndI : (idsOf s.players).Nodup := hnd
  have hsub : ∀ i ∈ idsOf s.players, i ∈ userIds users := by
    intro i hi
    obtain ⟨p, hp, rfl⟩ := List.mem_map.mp hi
    exact hpres p hp
  rcases refundGame_cases s users with ⟨hemp, he⟩ | ⟨hne, he⟩
  · rw [he]
    rw [hfilter] at hemp
    simp [sumTx, hemp]
  · rw [he]
    rw [hfilter, sumTx_payout_map,
      length_findUsersIn hU (by simpa [idsOf] using hndI) hsub]
    simp only [idsOf, List.length_map]
    ring

/-- A successful payout moves the whole pot minus the integer-division
remainder, which is below the winner count. -/
theorem payout_txs_bound {users : List UserRec} {s : GameSession}
    {winnerIds : List String} (hU : (userIds users).Nodup)
    (hnd : (idsOf s.players).Nodup)
    (hpres : ∀ p ∈ s.players, p.telegramId ∈ userIds users)
    (hok : (payoutWinners s users).result = .ok winnerIds) :
    sumTx (payoutWinners s users).txs ≤ s.wagerWei * s.players.length ∧
    s.wagerWei * s.players.length ≤
      sumTx (payoutWinners s users).txs + (winnerIds.length - 1) := by
  rcases payoutWinners_cases s users with
    ⟨msg, he⟩ | ⟨wIds, _, hne, hcase, hfne, he⟩
  · rw [he] at hok
    simp at hok
  · rw [he] at hok ⊢
    simp only [PayoutResult.ok.injEq] at hok
    subst hok
    rcases hcase with ⟨_, _, hwids⟩ | ⟨_, w, _, hwids⟩
    · have hndW : wIds.Nodup := by
        rw [hwids]
        exact hnd.sublist (idsOf_filter_sublist s.players _)
      have hsubW : ∀ i ∈ wIds, i ∈ userIds users := by
        rw [hwids]
        intro i hi
        obtain ⟨p, hp, rfl⟩ := List.mem_map.mp hi
        exact hpres p (List.mem_of_mem_filter hp)
      have hlenW := length_findUsersIn hU hndW hsubW
      rw [sumTx_payout_map, hlenW]
      have hkpos : 0 < wIds.length := List.length_pos.mpr hne
      have hdm := Nat.div_add_mod (s.wagerWei * s.players.length)
        wIds.length
      have hmlt := Nat.mod_lt (s.wagerWei * s.players.length) hkpos
      constructor <;> omega
    · subst hwids
      have hle := findUsersIn_singleton_le (w := w) hU
      have hge : 1 ≤ (findUsersIn users [w]).length :=
        List.length_pos.mpr hfne
      have hlen1 : (findUsersIn users [w]).length = 1 := le_antisymm hle hge
      rw [sumTx_payout_map, hlen1]
      simp

theorem castVote_cases (s : GameSession) (telegramId : String)
    (approvedVote : Bool) (now : Nat) :
    (∃ msg, castVote s telegramId approvedVote now =
      ⟨⟨false, some msg, 0, 0, 0, false, false⟩, s⟩) ∨
    (s.status = .voting ∧
      (∃ p ∈ s.players, p.telegramId = telegramId) ∧
      ¬ (∃ v ∈ s.votes, v.telegramId = telegramId) ∧
      castVote s telegramId approvedVote now =
        ⟨⟨true, none,
          (s.votes ++ [(⟨telegramId, approvedVote⟩ : GameVote)]).length,
          approvalsOf (s.votes ++ [(⟨telegramId, approvedVote⟩ : GameVote)]),
          denialsOf (s.votes ++ [(⟨telegramId, approvedVote⟩ : GameVote)]),
          decide (s.players.length / 2 + 1 ≤
            approvalsOf (s.votes ++ [(⟨telegramId, approvedVote⟩ : GameVote)])) ||
          decide (s.players.length / 2 + 1 ≤
            denialsOf (s.votes ++ [(⟨telegramId, approvedVote⟩ : GameVote)])),
          decide (s.players.length / 2 + 1 ≤
            approvalsOf (s.votes ++ [(⟨telegramId, approvedVote⟩ : GameVote)]))⟩,
         if decide (s.players.length / 2 + 1 ≤
              approvalsOf (s.votes ++ [(⟨telegramId, approvedVote⟩ : GameVote)]))
            = true then
           { s with votes := s.votes ++ [(⟨telegramId, approvedVote⟩ : GameVote)],
                    status := .completed, completedAt := some now }
         else if decide (s.players.length / 2 + 1 ≤
              denialsOf (s.votes ++ [(⟨telegramId, approvedVote⟩ : GameVote)]))
            = true then
           { s with votes := s.votes ++ [(⟨telegramId, approvedVote⟩ : GameVote)],
                    status := .disputed }
         else
           { s with
             votes := s.votes ++ [(⟨telegramId, approvedVote⟩ : GameVote)] }⟩) := by
  unfold castVote
  repeat' (first | split | dsimp only)
  all_goals
    first
    | exact Or.inl ⟨_, rfl⟩
    | (refine Or.inr ⟨?_, ?_, ?_, rfl⟩ <;>
        first
        | assumption
        | exact not_not.mp (by assumption))
    | (exfalso; simp_all)

/-- C5: a successful `castVote` appends the vote and resolves by strict
majority of the current player count, `floor(n/2)+1`, computed independently
for approvals and denials: reaching it on approvals completes the session with
a completion timestamp, reaching it on denials disputes it, and a tally below
the threshold on both sides leaves the session in `voting`. -/
theorem castVote_strict_majority (s : GameSession) (telegramId : String)
    (approvedVote : Bool) (now : Nat)
    (hok : (castVote s telegramId approvedVote now).result.success = true) :
    s.status = .voting ∧
    (castVote s telegramId approvedVote now).session.votes =
      s.votes ++ [⟨telegramId, approvedVote⟩] ∧
    (castVote s telegramId approvedVote now).result.approvals =
      approvalsOf ((castVote s telegramId approvedVote now).session.votes) ∧
    (castVote s telegramId approvedVote now).result.denials =
      denialsOf ((castVote s telegramId approvedVote now).session.votes) ∧
    (s.players.length / 2 + 1 ≤
        (castVote s telegramId approvedVote now).result.approvals →
      (castVote s telegramId approvedVote now).session.status = .completed ∧
      (castVote s telegramId approvedVote now).session.completedAt =
        some now) ∧
    ((castVote s telegramId approvedVote now).result.approvals <
        s.players.length / 2 + 1 →
      s.players.length / 2 + 1 ≤
        (castVote s telegramId approvedVote now).result.denials →
      (castVote s telegramId approvedVote now).session.status = .disputed) ∧
    ((castVote s telegramId approvedVote now).result.approvals <
        s.players.length / 2 + 1 →
      (castVote s telegramId approvedVote now).result.denials <
        s.players.length / 2 + 1 →
      (castVote s telegramId approvedVote now).session.status = .voting) := by
  rcases castVote_cases s telegramId approvedVote now with
    ⟨msg, he⟩ | ⟨hvot, _, _, he⟩
  · rw [he] at hok
    simp at hok
  · rw [he]
    by_cases hA : s.players.length / 2 + 1 ≤
        approvalsOf (s.votes ++ [(⟨telegramId, approvedVote⟩ : GameVote)]) <;>
      by_cases hD : s.players.length / 2 + 1 ≤
        denialsOf (s.votes ++ [(⟨telegramId, approvedVote⟩ : GameVote)]) <;>
      refine ⟨hvot, ?_, ?_, ?_, ?_, ?_, ?_⟩ <;>
      simp [hA, hD, hvot]

/-- C7: after a vote that succeeds and leaves the round open, a second vote by
the same voter in the same round fails with the duplicate-vote error and
changes nothing. -/
theorem castVote_duplicate_rejected (s : GameSession) (telegramId : String)
    (a1 : Bool) (now1 : Nat) (a2 : Bool) (now2 : Nat)
    (h1 : (castVote s telegramId a1 now1).result.success = true)
    (h2 : (castVote s telegramId a1 now1).session.status = .voting) :
    (castVote (castVote s telegramId a1 now1).session telegramId a2
      now2).result.success = false ∧
    (castVote (castVote s telegramId a1 now1).session telegramId a2
      now2).result.error = some "You already voted." ∧
    (castVote (castVote s telegramId a1 now1).session telegramId a2
      now2).session = (castVote s telegramId a1 now1).session := by
  rcases castVote_cases s telegramId a1 now1 with
    ⟨msg, he⟩ | ⟨hvot, hp, hnv, he⟩
  · rw [he] at h1
    simp at h1
  · rw [he] at h2 ⊢
    by_cases hA : s.players.length / 2 + 1 ≤
        approvalsOf (s.votes ++ [(⟨telegramId, a1⟩ : GameVote)])
    · simp [hA] at h2
    · by_cases hD : s.players.length / 2 + 1 ≤
          denialsOf (s.votes ++ [(⟨telegramId, a1⟩ : GameVote)])
      · simp [hA, hD] at h2
      · simp only [hA, hD, decide_eq_true_eq, if_false, if_neg,
          not_false_iff]
        unfold castVote
        rw [if_neg (by simp [hvot])]
        rw [if_neg (not_not.mpr (by
          obtain ⟨p, hpm, hpid⟩ := hp
          exact ⟨p, hpm, hpid⟩))]
        rw [if_pos ⟨(⟨telegramId, a1⟩ : GameVote), by simp, rfl⟩]
        exact ⟨rfl, rfl, rfl⟩

/-- C4: joining never succeeds on a full session, and a successful join
appends exactly one player in the same update that, when the last slot is
filled, flips the status to `active` with a start timestamp — so a session
returned by a successful join is never both full and `waiting`. -/
theorem join_full_and_atomic (s : GameSession) (telegramId : String)
    (username : Option String) (chosenSide : Option Nat)
    (users : List UserRec) (balance : Nat) (transferOk : Bool) (now : Nat) :
    (s.totalSlots ≤ s.players.length →
      (∀ b, (joinGameSession s telegramId username chosenSide users balance
        transferOk now).result ≠ .ok b) ∧
      (joinGameSession s telegramId username chosenSide users balance
        transferOk now).session = s ∧
      (joinGameSession s telegramId username chosenSide users balance
        transferOk now).txs = []) ∧
    (∀ b, (joinGameSession s telegramId username chosenSide users balance
        transferOk now).result = .ok b →
      s.status = .waiting ∧
      (joinGameSession s telegramId username chosenSide users balance
        transferOk now).session.players.length = s.players.length + 1 ∧
      (joinGameSession s telegramId username chosenSide users balance
        transferOk now).session.totalSlots = s.totalSlots ∧
      ((joinGameSession s telegramId username chosenSide users balance
          transferOk now).session.players.length =
        (joinGameSession s telegramId username chosenSide users balance
          transferOk now).session.totalSlots →
        (joinGameSession s telegramId username chosenSide users balance
          transferOk now).session.status = .active ∧
        (joinGameSession s telegramId username chosenSide users balance
          transferOk now).session.startedAt = some now) ∧
      ((joinGameSession s telegramId username chosenSide users balance
          transferOk now).session.players.length ≠
        (joinGameSession s telegramId username chosenSide users balance
          transferOk now).session.totalSlots →
        (joinGameSession s telegramId username chosenSide users balance
          transferOk now).session.status = .waiting)) := by
  rcases joinGameSession_cases s telegramId username chosenSide users balance
      transferOk now with
    ⟨msg, he⟩ | he | ⟨side, user, hwait, _, hroom, _, _, _, _, he⟩
  · rw [he]
    exact ⟨fun _ => ⟨by simp, rfl, rfl⟩, fun b hb => by simp at hb⟩
  · rw [he]
    exact ⟨fun _ => ⟨by simp, rfl, rfl⟩, fun b hb => by simp at hb⟩
  · rw [he]
    constructor
    · intro hfull
      omega
    · intro b _
      refine ⟨hwait, by simp, rfl, ?_, ?_⟩ <;>
        by_cases hfill : s.totalSlots ≤ s.players.length + 1 <;>
        simp [hfill, hwait] <;>
        omega

/-- C2: `createGameSession` persists no session when the stake-collection
transfer fails, and whenever a session is persisted the transfer had
succeeded: exactly the creator's stake was moved to escrow and the generated
short id was returned. -/
theorem createSession_requires_collected_stake (gameType : String)
    (creatorTelegramId : String) (creatorUsername : Option String)
    (totalSlots wagerWei : Nat) (users : List UserRec) (creatorBalance : Nat)
    (shortId : String) :
    ((createGameSession gameType creatorTelegramId creatorUsername totalSlots
        wagerWei users creatorBalance false shortId).session = none ∧
      (createGameSession gameType creatorTelegramId creatorUsername totalSlots
        wagerWei users creatorBalance false shortId).txs = []) ∧
    (∀ transferOk s,
      (createGameSession gameType creatorTelegramId creatorUsername totalSlots
        wagerWei users creatorBalance transferOk shortId).session = some s →
      transferOk = true ∧
      s.shortId = shortId ∧
      (createGameSession gameType creatorTelegramId creatorUsername totalSlots
        wagerWei users creatorBalance transferOk shortId).result =
        .ok shortId ∧
      ∃ creator, findUser users creatorTelegramId = some creator ∧
        (createGameSession gameType creatorTelegramId creatorUsername
          totalSlots wagerWei users creatorBalance transferOk shortId).txs =
          [⟨.userAcct creator.smartAccountAddress, .escrow, wagerWei⟩]) := by
  constructor
  · rcases createGameSession_cases gameType creatorTelegramId creatorUsername
        totalSlots wagerWei users creatorBalance false shortId with
      ⟨msg, he⟩ | he | ⟨_, _, _, _, _, _, htok, _⟩
    · rw [he]
      exact ⟨rfl, rfl⟩
    · rw [he]
      exact ⟨rfl, rfl⟩
    · cases htok
  · intro transferOk s hs
    rcases createGameSession_cases gameType creatorTelegramId creatorUsername
        totalSlots wagerWei users creatorBalance transferOk shortId with
      ⟨msg, he⟩ | he | ⟨config, creator, _, _, hfind, _, htok, he⟩
    · rw [he] at hs
      simp at hs
    · rw [he] at hs
      simp at hs
    · rw [he] at hs ⊢
      simp only [Option.some.injEq] at hs
      subst hs
      exact ⟨htok, rfl, rfl, creator, hfind, rfl⟩

/-- C10: `payoutWinners` never updates the session record, successful or not,
so a repeated call on the same `completed` session returns the identical
effect and issues the full set of winner transfers again. -/
theorem payoutWinners_never_mutates (s : GameSession)
    (users : List UserRec) :
    (payoutWinners s users).session = s ∧
    payoutWinners (payoutWinners s users).session users =
      payoutWinners s users := by
  refine ⟨payoutWinners_session s users, ?_⟩
  rw [payoutWinners_session s users]

/-- C6: a payout is only issued on a `completed` session with a recorded
winner; the pot is `wagerPerPlayer × players.length`; a team-side winner
splits the pot by integer division across the winning side's paid players
(one escrow transfer of the per-winner share each), while a single-player
winner is paid the full pot. -/
theorem payoutWinners_pot_split (s : GameSession) (users : List UserRec)
    (winnerIds : List String) (hU : (userIds users).Nodup)
    (hnd : (idsOf s.players).Nodup)
    (hpaid : ∀ p ∈ s.players, p.paid = true)
    (hpres : ∀ p ∈ s.players, p.telegramId ∈ userIds users)
    (hok : (payoutWinners s users).result = .ok winnerIds) :
    s.status = .completed ∧
    ((∃ sd, s.teamBased = true ∧ s.proposedWinnerSide = some sd ∧
       winnerIds = idsOf (s.players.filter (fun p => p.paid && p.side == sd)) ∧
       (payoutWinners s users).txs.length = winnerIds.length ∧
       (∀ tx ∈ (payoutWinners s users).txs,
         tx.source = .escrow ∧
         tx.amount = s.wagerWei * s.players.length / winnerIds.length)) ∨
     (∃ w, s.proposedWinnerTelegramId = some w ∧ winnerIds = [w] ∧
       ((payoutWinners s users).txs.map (fun t => t.amount)) =
         [s.wagerWei * s.players.length])) := by
  rcases payoutWinners_cases s users with
    ⟨msg, he⟩ | ⟨wIds, hst, hne, hcase, hfne, he⟩
  · rw [he] at hok
    simp at hok
  · rw [he] at hok ⊢
    simp only [PayoutResult.ok.injEq] at hok
    subst hok
    refine ⟨hst, ?_⟩
    rcases hcase with ⟨hteam, hside, hwids⟩ | ⟨_, w, hw, hwids⟩
    · obtain ⟨sd, hsd⟩ := Option.ne_none_iff_exists'.mp hside
      have hfeq : s.players.filter (fun p => some p.side == s.proposedWinnerSide)
          = s.players.filter (fun p => p.paid && p.side == sd) := by
        refine List.filter_congr ?_
        intro p hp
        simp [hsd, hpaid p hp]
      have hndW : wIds.Nodup := by
        rw [hwids]
        exact hnd.sublist (idsOf_filter_sublist s.players _)
      have hsubW : ∀ i ∈ wIds, i ∈ userIds users := by
        rw [hwids]
        intro i hi
        obtain ⟨p, hp, rfl⟩ := List.mem_map.mp hi
        exact hpres p (List.mem_of_mem_filter hp)
      refine Or.inl ⟨sd, hteam, hsd, ?_, ?_, ?_⟩
      · rw [hwids, hfeq]
      · simp [List.length_map, length_findUsersIn hU hndW hsubW]
      · intro tx htx
        obtain ⟨u, hu, rfl⟩ := List.mem_map.mp htx
        exact ⟨rfl, rfl⟩
    · refine Or.inr ⟨w, hw, hwids, ?_⟩
      subst hwids
      have hlen1 : (findUsersIn users [w]).length = 1 :=
        le_antisymm (findUsersIn_singleton_le hU) (List.length_pos.mpr hfne)
      obtain ⟨u, hu⟩ := List.length_eq_one.mp hlen1
      rw [hu]
      simp

/-- The demo lifecycle (create, fill-by-join, propose, two approvals) is a
pre-terminal reachable execution. -/
theorem demoReach : ReachC demoUsers demoCompleted demoTxs := by
  have h0 : ReachC demoUsers demoWaiting demoCreate.txs :=
    ReachC.create "connect_4" "alice" (some "Alice") 2 10 10 true "ab12cd"
      (by rfl)
  have h1 := ReachC.join "bob" (some "Bob") none 10 true 100 h0
  have h2 := ReachC.propose "alice" (WinnerChoice.player "bob") h1
  have h3 := ReachC.vote "alice" true 200 h2
  have h4 := ReachC.vote "bob" true 300 h3
  exact h4

/-- The same demo state is reachable in the full system. -/
theorem demoReachT : ReachT demoUsers demoCompleted := by
  have h0 : ReachT demoUsers demoWaiting :=
    ReachT.create "connect_4" "alice" (some "Alice") 2 10 10 true "ab12cd"
      (by rfl)
  have h1 := ReachT.join "bob" (some "Bob") none 10 true 100 h0
  have h2 := ReachT.propose "alice" (WinnerChoice.player "bob") h1
  have h3 := ReachT.vote "alice" true 200 h2
  have h4 := ReachT.vote "bob" true 300 h3
  exact h4

/-- C1: along every pre-terminal reachable execution the stakes collected
into escrow exceed the refunds already issued (to leavers) by exactly one
wager per current player, and a terminal resolution pays that difference
back out: `refundGame` returns it exactly, a successful `cancelGame` returns
it exactly, and a successful `payoutWinners` returns it up to at most
`winnerCount - 1` units of integer-division rounding loss. -/
theorem terminal_money_conservation (users : List UserRec) (s : GameSession)
    (ts : List Transfer) (hU : (userIds users).Nodup)
    (hR : ReachC users s ts) :
    escrowIn ts = escrowOut ts + s.wagerWei * s.players.length ∧
    sumTx (refundGame s users).txs = s.wagerWei * s.players.length ∧
    (∀ telegramId c pids,
      (cancelGame s telegramId users).result = .ok c pids →
      sumTx (cancelGame s telegramId users).txs =
        s.wagerWei * s.players.length) ∧
    (∀ winnerIds, (payoutWinners s users).result = .ok winnerIds →
      sumTx (payoutWinners s users).txs ≤ s.wagerWei * s.players.length ∧
      s.wagerWei * s.players.length ≤
        sumTx (payoutWinners s users).txs + (winnerIds.length - 1)) := by
  obtain ⟨hnd, hpaid, hpres, hesc⟩ := reachC_invC hR
  refine ⟨hesc, refund_txs_sum hU hnd hpaid hpres, ?_, ?_⟩
  · intro telegramId c pids hok
    rcases cancelGame_cases s telegramId users with ⟨msg, he⟩ | ⟨_, _, he⟩
    · rw [he] at hok
      simp at hok
    · rw [he]
      exact refund_txs_sum hU hnd hpaid hpres
  · intro winnerIds hok
    exact payout_txs_bound hU hnd hpres hok

/-- C1 witness: the demo lifecycle collects 20 into escrow, refunds 20, and a
payout moves the whole pot of 20 (single winner, zero rounding loss). -/
theorem terminal_money_conservation_witness :
    escrowIn demoTxs =
      escrowOut demoTxs + demoCompleted.wagerWei *
        demoCompleted.players.length ∧
    sumTx (refundGame demoCompleted demoUsers).txs =
      demoCompleted.wagerWei * demoCompleted.players.length ∧
    (∀ telegramId c pids,
      (cancelGame demoCompleted telegramId demoUsers).result = .ok c pids →
      sumTx (cancelGame demoCompleted telegramId demoUsers).txs =
        demoCompleted.wagerWei * demoCompleted.players.length) ∧
    (∀ winnerIds,
      (payoutWinners demoCompleted demoUsers).result = .ok winnerIds →
      sumTx (payoutWinners demoCompleted demoUsers).txs ≤
        demoCompleted.wagerWei * demoCompleted.players.length ∧
      demoCompleted.wagerWei * demoCompleted.players.length ≤
        sumTx (payoutWinners demoCompleted demoUsers).txs +
          (winnerIds.length - 1)) :=
  terminal_money_conservation demoUsers demoCompleted demoTxs (by decide)
    demoReach

/-- C3 counterexample: `refundGame` on a `completed` session does not fail —
it succeeds, issues refund transfers, and rewrites the status to `cancelled`,
contradicting the claim that refund is impossible outside `waiting` and
`active`. -/
theorem refundGame_succeeds_on_completed :
    c3Session.status = .completed ∧
    (refundGame c3Session demoUsers).result = .ok 2 ["alice", "bob"] ∧
    (refundGame c3Session demoUsers).txs =
      [⟨.escrow, .userAcct "0xA", 10⟩, ⟨.escrow, .userAcct "0xB", 10⟩] ∧
    (refundGame c3Session demoUsers).session.status = .cancelled := by
  refine ⟨rfl, ?_, ?_, ?_⟩ <;> rfl

/-- C3 amended: `cancelGame` is the operation gated on state — on any session
whose status is not `waiting` (so also on `active`) it fails, issues no
transfer and leaves the session unchanged; `refundGame` itself checks no
status at all: its result and its transfers are identical for any two
statuses of the same session, and whenever there is a paid player it refunds
and sets `cancelled` regardless of the previous status. -/
theorem cancel_gated_refund_unchecked :
    (∀ (s : GameSession) (telegramId : String) (users : List UserRec),
      s.status ≠ .waiting →
      (cancelGame s telegramId users).session = s ∧
      (cancelGame s telegramId users).txs = [] ∧
      ∀ c pids, (cancelGame s telegramId users).result ≠ .ok c pids) ∧
    (∀ (s : GameSession) (users : List UserRec) (st1 st2 : GameStatus),
      (refundGame { s with status := st1 } users).result =
        (refundGame { s with status := st2 } users).result ∧
      (refundGame { s with status := st1 } users).txs =
        (refundGame { s with status := st2 } users).txs) ∧
    (∀ (s : GameSession) (users : List UserRec),
      s.players.filter (fun p => p.paid) ≠ [] →
      (refundGame s users).session.status = .cancelled ∧
      ∀ msg, (refundGame s users).result ≠ .err msg) := by
  refine ⟨?_, ?_, ?_⟩
  · intro s telegramId users hst
    rcases cancelGame_cases s telegramId users with ⟨msg, he⟩ | ⟨_, hw, _⟩
    · rw [he]
      exact ⟨rfl, rfl, by simp⟩
    · exact absurd hw hst
  · intro s users st1 st2
    have hp : ∀ st : GameStatus,
        ({ s with status := st } : GameSession).players = s.players :=
      fun _ => rfl
    have hw : ∀ st : GameStatus,
        ({ s with status := st } : GameSession).wagerWei = s.wagerWei :=
      fun _ => rfl
    unfold refundGame
    simp only [hp, hw]
    by_cases hemp : s.players.filter (fun p => p.paid) = []
    · simp only [if_pos hemp]
      exact ⟨trivial, trivial⟩
    · simp only [if_neg hemp]
      exact ⟨trivial, trivial⟩
  · intro s users hne
    rcases refundGame_cases s users with ⟨hemp, _⟩ | ⟨_, he⟩
    · exact absurd hemp hne
    · rw [he]
      exact ⟨rfl, by simp⟩

/-- C3 amended witness: on the completed demo session, cancellation fails
with no transfer and no change, while refund treats `completed` exactly like
`waiting` and does cancel it. -/
theorem cancel_gated_refund_unchecked_witness :
    ((cancelGame c3Session "alice" demoUsers).session = c3Session ∧
      (cancelGame c3Session "alice" demoUsers).txs = [] ∧
      ∀ c pids,
        (cancelGame c3Session "alice" demoUsers).result ≠ .ok c pids) ∧
    ((refundGame { c3Session with status := .completed } demoUsers).result =
      (refundGame { c3Session with status := .waiting } demoUsers).result) ∧
    ((refundGame c3Session demoUsers).session.status = .cancelled) :=
  ⟨cancel_gated_refund_unchecked.1 c3Session "alice" demoUsers (by decide),
   (cancel_gated_refund_unchecked.2.1 c3Session demoUsers .completed
     .waiting).1,
   (cancel_gated_refund_unchecked.2.2 c3Session demoUsers (by decide)).1⟩

theorem winnerFieldsOk_payout {s : GameSession} {users : List UserRec}
    (hw : winnerFieldsOk s) :
    winnerFieldsOk (payoutWinners s users).session := by
  rw [payoutWinners_session]
  exact hw

/-- C9 counterexample: a reachable `completed` session (resolved by votes)
still carries its proposed winner, so the winner fields are not unset in
every status other than `voting`. -/
theorem completed_session_keeps_winner :
    ReachT demoUsers demoCompleted ∧
    demoCompleted.status = .completed ∧
    demoCompleted.status ≠ .voting ∧
    demoCompleted.proposedWinnerTelegramId = some "bob" :=
  ⟨demoReachT, rfl, by decide, rfl⟩

/-- C9 (amended): in every reachable session state both winner fields are
unset while the status is `waiting` or `active`, and exactly one of them is
set while the status is `voting`, `completed`, or `disputed` (the proposal
survives the transition out of `voting`; a `cancelled` session may carry
either shape). -/
theorem winner_fields_lifecycle (users : List UserRec) (s : GameSession)
    (h : ReachT users s) : winnerFieldsOk s := by
  induction h with
  | create _ _ _ _ _ _ _ _ hs => exact winnerFieldsOk_create hs
  | join _ _ _ _ _ _ _ ih => exact winnerFieldsOk_join ih
  | switch _ _ ih => exact winnerFieldsOk_switch ih
  | leave _ _ _ ih => exact winnerFieldsOk_leave ih
  | propose _ _ _ ih => exact winnerFieldsOk_propose ih
  | vote _ _ _ _ ih => exact winnerFieldsOk_vote ih
  | refund _ ih => exact winnerFieldsOk_refund ih
  | cancel _ _ ih => exact winnerFieldsOk_cancel ih
  | payout _ ih => exact winnerFieldsOk_payout ih
  | adminResolve _ _ _ ih => exact winnerFieldsOk_adminResolve ih

/-- C9 witness: the demo lifecycle's completed state satisfies the amended
winner-field discipline. -/
theorem winner_fields_lifecycle_witness : winnerFieldsOk demoCompleted :=
  winner_fields_lifecycle demoUsers demoCompleted demoReachT

/-- Deleting a token removes it from the registry. -/
theorem regGet_regDelete (reg : PendingRegistry) (t : String) :
    regGet (regDelete reg t) t = none := by
  unfold regGet regDelete
  have h : ((reg.filter (fun e => e.fst != t)).find?
      (fun e => e.fst == t)) = none := by
    rw [List.find?_eq_none]
    intro e he
    have hme := (List.mem_filter.mp he).2
    simp only [bne_iff_ne, ne_eq, decide_eq_true_eq] at hme
    simpa using hme
  rw [h]
  rfl

/-- C8: a fresh pending transfer confirmed by its sender is consumed before
the Ledger call, so a second confirmation of the same token finds nothing,
issues no Ledger call, and at most one Ledger transfer is ever issued for the
token. -/
theorem pending_confirm_consumed_once (reg : PendingRegistry)
    (transferId callerTelegramId : String) (p : PendingTransfer)
    (now1 now2 : Nat) (b1 b2 : Bool)
    (hfound : regGet reg transferId = some p)
    (hfresh : ¬ PENDING_TRANSFER_TTL < now1 - p.createdAt)
    (howner : p.senderTelegramId = callerTelegramId) :
    (handleTransferCallback reg transferId callerTelegramId true now1
      b1).outcome = .confirmedAttempt b1 ∧
    (handleTransferCallback reg transferId callerTelegramId true now1
      b1).ledgerTxs ≤ 1 ∧
    (handleTransferCallback (handleTransferCallback reg transferId
        callerTelegramId true now1 b1).reg transferId callerTelegramId true
      now2 b2).outcome = .noLongerAvailable ∧
    (handleTransferCallback (handleTransferCallback reg transferId
        callerTelegramId true now1 b1).reg transferId callerTelegramId true
      now2 b2).ledgerTxs = 0 ∧
    (handleTransferCallback reg transferId callerTelegramId true now1
        b1).ledgerTxs +
      (handleTransferCallback (handleTransferCallback reg transferId
          callerTelegramId true now1 b1).reg transferId callerTelegramId true
        now2 b2).ledgerTxs ≤ 1 := by
  have he1 : handleTransferCallback reg transferId callerTelegramId true now1
      b1 = ⟨regDelete reg transferId, .confirmedAttempt b1,
        if b1 then 1 else 0⟩ := by
    unfold handleTransferCallback
    rw [hfound]
    dsimp only
    rw [if_neg hfresh]
    rw [if_neg (by simp [howner])]
    rw [if_neg (by simp)]
  have he2 : handleTransferCallback (regDelete reg transferId) transferId
      callerTelegramId true now2 b2 =
      ⟨regDelete reg transferId, .noLongerAvailable, 0⟩ := by
    unfold handleTransferCallback
    rw [regGet_regDelete]
  rw [he1]
  dsimp only
  rw [he2]
  refine ⟨rfl, ?_, rfl, rfl, ?_⟩ <;> cases b1 <;> simp

/-- C8 witness: confirming the demo token twice in a row issues exactly one
Ledger call and the second attempt reports the entry gone. -/
theorem pending_confirm_consumed_once_witness :
    (handleTransferCallback pendingReg "tok123" "alice" true 1000
      true).outcome = .confirmedAttempt true ∧
    (handleTransferCallback pendingReg "tok123" "alice" true 1000
      true).ledgerTxs ≤ 1 ∧
    (handleTransferCallback (handleTransferCallback pendingReg "tok123"
        "alice" true 1000 true).reg "tok123" "alice" true 2000
      true).outcome = .noLongerAvailable ∧
    (handleTransferCallback (handleTransferCallback pendingReg "tok123"
        "alice" true 1000 true).reg "tok123" "alice" true 2000
      true).ledgerTxs = 0 ∧
    (handleTransferCallback pendingReg "tok123" "alice" true 1000
        true).ledgerTxs +
      (handleTransferCallback (handleTransferCallback pendingReg "tok123"
          "alice" true 1000 true).reg "tok123" "alice" true 2000
        true).ledgerTxs ≤ 1 :=
  pending_confirm_consumed_once pendingReg "tok123" "alice" pendingEntry 1000
    2000 true true (by rfl) (by decide) rfl

/-- C2 witness: with the stake transfer failing, the demo creation persists
nothing and moves nothing; with it succeeding, the session is persisted and
exactly the creator's stake was collected. -/
theorem createSession_requires_collected_stake_witness :
    ((createGameSession "connect_4" "alice" (some "Alice") 2 10 demoUsers 10
        false "ab12cd").session = none ∧
      (createGameSession "connect_4" "alice" (some "Alice") 2 10 demoUsers 10
        false "ab12cd").txs = []) ∧
    (true = true ∧ demoWaiting.shortId = "ab12cd" ∧
      demoCreate.result = .ok "ab12cd" ∧
      ∃ creator, findUser demoUsers "alice" = some creator ∧
        demoCreate.txs =
          [⟨.userAcct creator.smartAccountAddress, .escrow, 10⟩]) :=
  have T := createSession_requires_collected_stake "connect_4" "alice"
    (some "Alice") 2 10 demoUsers 10 "ab12cd"
  ⟨T.1, T.2 true demoWaiting (by rfl)⟩

/-- C4 witness: joining the already-full session fails without any change,
and the slot-filling demo join leaves an `active` session with a start
timestamp in the same update. -/
theorem join_full_and_atomic_witness :
    ((joinGameSession fullWaiting "carol" none none demoUsers 10 true
        400).session = fullWaiting ∧
      (joinGameSession fullWaiting "carol" none none demoUsers 10 true
        400).txs = []) ∧
    (demoJoin.session.status = .active ∧
      demoJoin.session.startedAt = some 100) :=
  have T1 := join_full_and_atomic fullWaiting "carol" none none demoUsers 10
    true 400
  have T2 := join_full_and_atomic demoWaiting "bob" (some "Bob") none
    demoUsers 10 true 100
  ⟨⟨(T1.1 (by decide)).2.1, (T1.1 (by decide)).2.2⟩,
   (T2.2 true (by rfl)).2.2.2.1 (by rfl)⟩

/-- C5 witness: with four players the threshold is 3, so a 2-2 tally leaves
the session in `voting`. -/
theorem castVote_strict_majority_witness :
    (castVote voteSession "dave" false 500).result.approvals = 2 ∧
    (castVote voteSession "dave" false 500).result.denials = 2 ∧
    (castVote voteSession "dave" false 500).session.status = .voting :=
  ⟨rfl, rfl,
   (castVote_strict_majority voteSession "dave" false 500
     rfl).2.2.2.2.2.2 (by decide) (by decide)⟩

/-- C6 witness: the completed 2v2 session with side 0 recorded pays the pot
of 40 split as 20 to each of the two paid side-0 players. -/
theorem payoutWinners_pot_split_witness :
    teamSession.status = .completed ∧
    ((∃ sd, teamSession.teamBased = true ∧
       teamSession.proposedWinnerSide = some sd ∧
       ["alice", "bob"] = idsOf (teamSession.players.filter
         (fun p => p.paid && p.side == sd)) ∧
       (payoutWinners teamSession teamUsers).txs.length =
         (["alice", "bob"] : List String).length ∧
       (∀ tx ∈ (payoutWinners teamSession teamUsers).txs,
         tx.source = .escrow ∧
         tx.amount = teamSession.wagerWei * teamSession.players.length /
           (["alice", "bob"] : List String).length)) ∨
     (∃ w, teamSession.proposedWinnerTelegramId = some w ∧
       ["alice", "bob"] = [w] ∧
       ((payoutWinners teamSession teamUsers).txs.map (fun t => t.amount)) =
         [teamSession.wagerWei * teamSession.players.length])) :=
  payoutWinners_pot_split teamSession teamUsers ["alice", "bob"] (by decide)
    (by decide) (by decide) (by decide) (by rfl)

/-- C7 witness: after a first, non-resolving vote, the same voter's second
vote is rejected as a duplicate and nothing changes. -/
theorem castVote_duplicate_rejected_witness :
    (castVote (castVote freshVoteSession "alice" true 600).session "alice"
      false 700).result.success = false ∧
    (castVote (castVote freshVoteSession "alice" true 600).session "alice"
      false 700).result.error = some "You already voted." ∧
    (castVote (castVote freshVoteSession "alice" true 600).session "alice"
      false 700).session =
      (castVote freshVoteSession "alice" true 600).session :=
  castVote_duplicate_rejected freshVoteSession "alice" true 600 false 700 rfl
    rfl
